import Mathlib

/-!
Verification of the transactional core and snapshot pipeline of the foedus
storage engine against its natural-language specification.

The development shallowly embeds the relevant C++ code in Lean:
machine integers become Nat with explicit reductions modulo a power of two
where the width matters, fallible functions return an explicit error code,
and stateful methods become pure state-passing functions.

Components whose implementation files are not part of the verified sources
(the Epoch class, the Xct method bodies that live in xct.cpp, the lock-list
helpers, the externalization and string helpers) are modelled from the
specification text; each such definition carries a doc comment starting
with "Modelled from the spec:".
-/

/-! ## Epoch: 32-bit cyclic epoch counter -/

/-- Reserved invalid epoch value. -/
def kEpochInvalid : Nat := 0

/-- Size of the cyclic epoch domain: epochs are 32-bit integers. -/
def kEpochMod : Nat := 2 ^ 32

/-- Half of the epoch domain; the comparison window radius. -/
def kEpochHalf : Nat := 2 ^ 31

/-- Modelled from the spec: missing epoch.hpp. Cyclic epoch comparison.
Epoch a is before epoch b iff the value (b - a) modulo 2 to the 32 lies in
the open interval from 0 to 2 to the 31. -/
def epoch_before (a b : Nat) : Bool :=
  let d := (b + kEpochMod - a) % kEpochMod
  decide (0 < d) && decide (d < kEpochHalf)

/-- Modelled from the spec: missing epoch.hpp. Epoch validity: the value 0
is reserved as the invalid epoch. -/
def epoch_is_valid (e : Nat) : Bool := decide (e ≠ kEpochInvalid)

/-- Modelled from the spec: missing epoch.hpp. store_max keeps the one of
the two epochs that is after the other under the cyclic ordering, ignoring
an invalid argument. -/
def epoch_store_max (cur other : Nat) : Nat :=
  if epoch_is_valid other then
    if !epoch_is_valid cur || epoch_before cur other then other else cur
  else cur

/-- Modelled from the spec: missing epoch.hpp. Monotone successor of an
epoch, skipping the reserved invalid value 0 on wrap-around. -/
def epoch_one_more (e : Nat) : Nat := if e + 1 = kEpochMod then 1 else e + 1

/-- Forward cyclic distance from epoch a to epoch b. -/
def epoch_dist (a b : Nat) : Nat := (b + kEpochMod - a) % kEpochMod

/-- Characterization of the cyclic comparison on in-range epoch values:
a is before b iff either a is numerically below b within the half window,
or b has wrapped around and sits more than half a cycle below a. -/
theorem epoch_before_iff {a b : Nat} (ha : a < kEpochMod) (hb : b < kEpochMod) :
    epoch_before a b = true ↔ ((a < b ∧ b - a < kEpochHalf) ∨ b + kEpochHalf < a) := by
  unfold epoch_before
  simp only [Bool.and_eq_true, decide_eq_true_eq]
  rcases le_or_lt a b with hab | hab
  · have heq : b + kEpochMod - a = (b - a) + kEpochMod := by
      unfold kEpochMod at *; omega
    rw [heq, Nat.add_mod_right, Nat.mod_eq_of_lt (by unfold kEpochMod at *; omega)]
    unfold kEpochMod kEpochHalf at *
    omega
  · rw [Nat.mod_eq_of_lt (by unfold kEpochMod at *; omega)]
    unfold kEpochMod kEpochHalf at *
    omega

/-! ## XctId: 64-bit commit identifier (epoch, in-epoch ordinal) -/

/-- Largest in-epoch ordinal: ordinals are 24-bit values. -/
def kMaxXctOrdinal : Nat := 2 ^ 24 - 1

/-- Commit identifier: the epoch and the in-epoch ordinal. Status bits of
the ownership word are irrelevant to ordering and omitted. -/
structure XctId where
  epoch : Nat
  ordinal : Nat
deriving DecidableEq, Repr

/-- Modelled from the spec: missing xct_id.hpp. XctId.before compares
lexicographically on (epoch, ordinal), the epoch part cyclically. -/
def XctId.before (a b : XctId) : Bool :=
  epoch_before a.epoch b.epoch || (a.epoch == b.epoch && decide (a.ordinal < b.ordinal))

/-- Modelled from the spec: missing xct_id.hpp. Keeps the larger of two
commit identifiers in the lexicographic (epoch, ordinal) order. -/
def xctid_store_max (cur other : XctId) : XctId :=
  if cur.before other then other else cur

/-- Modelled from the spec: missing xct.cpp body of Xct::issue_next_id.
Starting from the most recently issued id of this thread, take the maximum
with the largest dependency id, lift the epoch to the given lower bound
resetting the ordinal, and increment the ordinal; when the 24-bit ordinal
would overflow within the current epoch, advance the epoch by one and reset
the ordinal to 1. Returns the issued id and the output epoch. -/
def issue_next_id (id_ max_xct_id : XctId) (epoch : Nat) : XctId × Nat :=
  let new0 := xctid_store_max id_ max_xct_id
  let new1 := if epoch_before new0.epoch epoch then XctId.mk epoch 0 else new0
  if kMaxXctOrdinal ≤ new1.ordinal then
    (XctId.mk (epoch_one_more new1.epoch) 1, epoch_one_more new1.epoch)
  else
    (XctId.mk new1.epoch (new1.ordinal + 1), new1.epoch)

/-- Xct::remember_previous_xct_id: records the newly issued id as the
most recent id of the thread (its precondition id_.before new_id is the
monotonicity property proved below). -/
def remember_previous_xct_id (new_id : XctId) : XctId := new_id

set_option maxHeartbeats 3200000 in
/-- C1: at a successful commit, issue_next_id issues an id strictly greater
(lexicographically on (epoch, ordinal)) than both the previously issued id
of this thread and the largest dependency id max_xct_id; the epoch of the
issued id equals the output epoch, which is at or after the input epoch;
and when the 24-bit ordinal would overflow within the current epoch, the
epoch is advanced by one and the ordinal is reset to 1. The function is
total, hence the call never fails. The hypotheses state that all epochs
are valid 32-bit values and that the input epochs lie within the cyclic
comparison window at or below the commit epoch, which holds at every
successful commit because the commit epoch is read after all accesses. -/
theorem c1_issue_next_id
    (id_ max_xct_id : XctId) (epoch : Nat)
    (hae : id_.epoch < kEpochMod) (hme : max_xct_id.epoch < kEpochMod)
    (he : epoch < kEpochMod) (hev : 0 < epoch)
    (hav : 0 < id_.epoch) (hmv : 0 < max_xct_id.epoch)
    (hwa : epoch_dist id_.epoch epoch + 3 ≤ kEpochHalf)
    (hwm : epoch_dist max_xct_id.epoch epoch + 3 ≤ kEpochHalf) :
    XctId.before id_ (issue_next_id id_ max_xct_id epoch).1 = true ∧
    XctId.before max_xct_id (issue_next_id id_ max_xct_id epoch).1 = true ∧
    (issue_next_id id_ max_xct_id epoch).1.epoch = (issue_next_id id_ max_xct_id epoch).2 ∧
    ((issue_next_id id_ max_xct_id epoch).2 = epoch ∨
      epoch_before epoch (issue_next_id id_ max_xct_id epoch).2 = true) ∧
    1 ≤ (issue_next_id id_ max_xct_id epoch).1.ordinal ∧
    (issue_next_id id_ max_xct_id epoch).1.ordinal ≤ kMaxXctOrdinal ∧
    ((epoch_before (xctid_store_max id_ max_xct_id).epoch epoch = false ∧
      kMaxXctOrdinal ≤ (xctid_store_max id_ max_xct_id).ordinal) →
      (issue_next_id id_ max_xct_id epoch).1.epoch = epoch_one_more epoch ∧
      (issue_next_id id_ max_xct_id epoch).1.ordinal = 1) := by
  have hwa' : (id_.epoch ≤ epoch ∧ epoch - id_.epoch + 3 ≤ kEpochHalf) ∨
      (epoch < id_.epoch ∧ epoch + kEpochMod - id_.epoch + 3 ≤ kEpochHalf) := by
    unfold epoch_dist kEpochMod kEpochHalf at *
    omega
  have hwm' : (max_xct_id.epoch ≤ epoch ∧ epoch - max_xct_id.epoch + 3 ≤ kEpochHalf) ∨
      (epoch < max_xct_id.epoch ∧ epoch + kEpochMod - max_xct_id.epoch + 3 ≤ kEpochHalf) := by
    unfold epoch_dist kEpochMod kEpochHalf at *
    omega
  clear hwa hwm
  simp only [issue_next_id, xctid_store_max, XctId.before, epoch_before, epoch_one_more,
    kMaxXctOrdinal]
  split_ifs <;>
    simp only [Bool.or_eq_true, Bool.and_eq_true, decide_eq_true_eq, beq_iff_eq,
      Bool.or_eq_false_iff, Bool.and_eq_false_iff, decide_eq_false_iff_not,
      beq_eq_false_iff_ne, ne_eq, not_lt, not_and, not_le, XctId.mk.injEq,
      true_and, and_true, true_or, or_true,
      kEpochMod, kEpochHalf, kMaxXctOrdinal] at * <;>
    (repeat' apply And.intro) <;>
    first
    | trivial
    | (exact fun h => trivial)
    | omega
    | (split_ifs <;> omega)

/-! ## Xct: the per-thread transaction object (xct.hpp) -/

/-- Xct::Constants::kMaxPointerSets. -/
def kMaxPointerSets : Nat := 1024

/-- Xct::Constants::kMaxPageVersionSets. -/
def kMaxPageVersionSets : Nat := 1024

/-- Isolation levels of foedus transactions. -/
inductive IsolationLevel
  | kDirtyRead
  | kSnapshot
  | kSerializable
deriving DecidableEq, Repr

/-- Lock modes used by the lock lists. -/
inductive LockMode
  | kNoLock
  | kReadLock
  | kWriteLock
deriving DecidableEq, Repr

/-- One entry of the current or retrospective lock list: the universal lock
id, the mode the transaction wants, and the mode currently taken. -/
structure LockListEntry where
  universal_lock_id : Nat
  preferred_mode : LockMode
  taken_mode : LockMode
deriving DecidableEq, Repr

/-- PointerAccess: address of a volatile page pointer and the value
observed when it was followed. Addresses and observed words are numbers. -/
structure PointerAccess where
  address : Nat
  observed : Nat
deriving DecidableEq, Repr

/-- PageVersionAccess: address of a page version word and the status
observed. -/
structure PageVersionAccess where
  address : Nat
  observed : Nat
deriving DecidableEq, Repr

/-- Error codes of the operations embedded here. -/
inductive ErrorCode
  | kErrorCodeOk
  | kErrorCodeXctTooManyReads
  | kErrorCodeXctNoMoreLocalWorkMemory
deriving DecidableEq, Repr

/-- State of the Xct object. The read, write and lock-free-write sets are
tracked by their sizes (activate only resets the sizes); the pointer and
page-version sets are tracked as lists whose length is the set size. -/
structure Xct where
  id_ : XctId
  isolation_level_ : IsolationLevel
  active_ : Bool
  mcs_block_current_ : Nat
  read_set_size_ : Nat
  write_set_size_ : Nat
  lock_free_write_set_size_ : Nat
  pointer_set_ : List PointerAccess
  page_version_set_ : List PageVersionAccess
  current_lock_list_ : List LockListEntry
  retrospective_lock_list_ : List LockListEntry
  local_work_memory_size_ : Nat
  local_work_memory_cur_ : Nat
deriving DecidableEq, Repr

/-- Modelled from the spec: missing retrospective_lock_list.cpp body of
CurrentLockList::prepopulate_for_retrospective_lock_list. Makes one CLL
entry for each RLL entry, in the same order, with no lock taken yet. -/
def prepopulate_for_retrospective_lock_list (rll : List LockListEntry) : List LockListEntry :=
  rll.map fun e => LockListEntry.mk e.universal_lock_id e.preferred_mode LockMode.kNoLock

/-- Xct::activate, embedded from the body in xct.hpp: marks the
transaction active, resets every set, the MCS block counter and the local
work memory cursor, clears the CLL, and, when the RLL is not empty,
pre-populates the CLL from it. -/
def Xct.activate (xct : Xct) (isolation_level : IsolationLevel) : Xct :=
  { xct with
    active_ := true
    isolation_level_ := isolation_level
    pointer_set_ := []
    page_version_set_ := []
    read_set_size_ := 0
    write_set_size_ := 0
    lock_free_write_set_size_ := 0
    mcs_block_current_ := 0
    local_work_memory_cur_ := 0
    current_lock_list_ :=
      if xct.retrospective_lock_list_.isEmpty then []
      else prepopulate_for_retrospective_lock_list xct.retrospective_lock_list_ }

/-- Modelled from the spec: missing xct.cpp body of
Xct::add_to_pointer_set. The pointer set holds at most kMaxPointerSets
entries; a call that would exceed the bound returns
kErrorCodeXctTooManyReads and leaves the set unchanged; otherwise the
observation is appended and the call succeeds. -/
def Xct.add_to_pointer_set (xct : Xct) (pointer_address observed : Nat) : ErrorCode × Xct :=
  if kMaxPointerSets ≤ xct.pointer_set_.length then
    (ErrorCode.kErrorCodeXctTooManyReads, xct)
  else
    (ErrorCode.kErrorCodeOk,
      { xct with pointer_set_ := xct.pointer_set_ ++ [PointerAccess.mk pointer_address observed] })

/-- Modelled from the spec: missing xct.cpp body of
Xct::add_to_page_version_set. Same bound discipline as the pointer set
with kMaxPageVersionSets. -/
def Xct.add_to_page_version_set (xct : Xct) (version_address observed : Nat) : ErrorCode × Xct :=
  if kMaxPageVersionSets ≤ xct.page_version_set_.length then
    (ErrorCode.kErrorCodeXctTooManyReads, xct)
  else
    (ErrorCode.kErrorCodeOk,
      { xct with page_version_set_ :=
          xct.page_version_set_ ++ [PageVersionAccess.mk version_address observed] })

/-- Width of the size argument of acquire_local_work_memory (uint32). -/
def kUint32Mod : Nat := 2 ^ 32

/-- Width of the work memory cursor (uint64). -/
def kUint64Mod : Nat := 2 ^ 64

/-- The rounding used by acquire_local_work_memory: when x is not a
multiple of the alignment, round it up to the next multiple, in machine
arithmetic of the given width. -/
def align_up (x alignment width : Nat) : Nat :=
  if x % alignment ≠ 0 then ((x / alignment + 1) * alignment) % width else x

/-- Xct::acquire_local_work_memory, embedded from the body in xct.hpp:
rounds the requested size up to the alignment in 32-bit arithmetic, rounds
the current cursor up to the alignment in 64-bit arithmetic, fails with
kErrorCodeXctNoMoreLocalWorkMemory when the rounded request does not fit,
and otherwise advances the cursor and returns the allocated offset from
the work memory base. -/
def Xct.acquire_local_work_memory (xct : Xct) (size : Nat) (alignment : Nat) :
    ErrorCode × Xct × Option Nat :=
  let size2 := align_up size alignment kUint32Mod
  let begin2 := align_up xct.local_work_memory_cur_ alignment kUint64Mod
  let total := (size2 + begin2) % kUint64Mod
  if xct.local_work_memory_size_ < total then
    (ErrorCode.kErrorCodeXctNoMoreLocalWorkMemory, xct, none)
  else
    (ErrorCode.kErrorCodeOk, { xct with local_work_memory_cur_ := total }, some begin2)

/-- C2: activating a non-active transaction leaves it active with the
read, write, lock-free-write, pointer and page-version sets empty, the MCS
block counter and local work memory cursor reset and the CLL cleared; and
when the RLL is non-empty at that moment the CLL is pre-populated with one
entry matching each RLL entry (same lock id, same preferred mode), in the
same order, with no lock taken. -/
theorem c2_activate (xct : Xct) (lvl : IsolationLevel) (hpre : xct.active_ = false) :
    (xct.activate lvl).active_ = true ∧
    (xct.activate lvl).isolation_level_ = lvl ∧
    (xct.activate lvl).read_set_size_ = 0 ∧
    (xct.activate lvl).write_set_size_ = 0 ∧
    (xct.activate lvl).lock_free_write_set_size_ = 0 ∧
    (xct.activate lvl).pointer_set_ = [] ∧
    (xct.activate lvl).page_version_set_ = [] ∧
    (xct.activate lvl).mcs_block_current_ = 0 ∧
    (xct.activate lvl).local_work_memory_cur_ = 0 ∧
    (xct.retrospective_lock_list_ = [] → (xct.activate lvl).current_lock_list_ = []) ∧
    (xct.retrospective_lock_list_ ≠ [] →
      List.Forall₂
        (fun c r => c.universal_lock_id = r.universal_lock_id ∧
          c.preferred_mode = r.preferred_mode ∧ c.taken_mode = LockMode.kNoLock)
        (xct.activate lvl).current_lock_list_ xct.retrospective_lock_list_) := by
  refine ⟨rfl, rfl, rfl, rfl, rfl, rfl, rfl, rfl, rfl, ?_, ?_⟩
  · intro h
    simp [Xct.activate, h]
  · intro h
    simp only [Xct.activate, List.isEmpty_iff, h, if_false,
      prepopulate_for_retrospective_lock_list]
    rw [List.forall₂_map_left_iff]
    exact List.forall₂_same.2 fun e _ => ⟨rfl, rfl, rfl⟩

/-- Concrete transaction state used by witnesses: inactive, one RLL entry,
sets non-empty so that activate visibly clears them. -/
def xct_w : Xct :=
  Xct.mk (XctId.mk 3 4) IsolationLevel.kSnapshot false 2 5 6 7
    [PointerAccess.mk 11 12] [PageVersionAccess.mk 13 14]
    [LockListEntry.mk 9 LockMode.kWriteLock LockMode.kWriteLock]
    [LockListEntry.mk 21 LockMode.kReadLock LockMode.kReadLock,
      LockListEntry.mk 35 LockMode.kWriteLock LockMode.kNoLock]
    4096 16

/-- Witness for C2 at a concrete inactive transaction with a two-entry
RLL. -/
theorem c2_activate_witness :
    xct_w.active_ = false ∧
    (xct_w.activate IsolationLevel.kSerializable).active_ = true ∧
    (xct_w.activate IsolationLevel.kSerializable).pointer_set_ = [] ∧
    List.Forall₂
      (fun c r => c.universal_lock_id = r.universal_lock_id ∧
        c.preferred_mode = r.preferred_mode ∧ c.taken_mode = LockMode.kNoLock)
      (xct_w.activate IsolationLevel.kSerializable).current_lock_list_
      xct_w.retrospective_lock_list_ := by
  have h := c2_activate xct_w IsolationLevel.kSerializable rfl
  exact ⟨rfl, h.1, h.2.2.2.2.2.1, h.2.2.2.2.2.2.2.2.2.2 (by decide)⟩

/-- C5: the pointer set and the page version set are bounded by 1024
entries each; a call to add_to_pointer_set or add_to_page_version_set that
would exceed the respective bound returns kErrorCodeXctTooManyReads and
leaves the whole transaction state, in particular the set, unchanged; a
call below the bound succeeds and both sets always stay within their
bounds. -/
theorem c5_set_bounds (xct : Xct) (p o va vo : Nat) :
    kMaxPointerSets = 1024 ∧ kMaxPageVersionSets = 1024 ∧
    (kMaxPointerSets ≤ xct.pointer_set_.length →
      xct.add_to_pointer_set p o = (ErrorCode.kErrorCodeXctTooManyReads, xct)) ∧
    (xct.pointer_set_.length < kMaxPointerSets →
      (xct.add_to_pointer_set p o).1 = ErrorCode.kErrorCodeOk ∧
      (xct.add_to_pointer_set p o).2.pointer_set_ =
        xct.pointer_set_ ++ [PointerAccess.mk p o]) ∧
    (xct.pointer_set_.length ≤ kMaxPointerSets →
      (xct.add_to_pointer_set p o).2.pointer_set_.length ≤ kMaxPointerSets) ∧
    (kMaxPageVersionSets ≤ xct.page_version_set_.length →
      xct.add_to_page_version_set va vo = (ErrorCode.kErrorCodeXctTooManyReads, xct)) ∧
    (xct.page_version_set_.length < kMaxPageVersionSets →
      (xct.add_to_page_version_set va vo).1 = ErrorCode.kErrorCodeOk ∧
      (xct.add_to_page_version_set va vo).2.page_version_set_ =
        xct.page_version_set_ ++ [PageVersionAccess.mk va vo]) ∧
    (xct.page_version_set_.length ≤ kMaxPageVersionSets →
      (xct.add_to_page_version_set va vo).2.page_version_set_.length ≤ kMaxPageVersionSets) := by
  unfold Xct.add_to_pointer_set Xct.add_to_page_version_set kMaxPointerSets kMaxPageVersionSets
  refine ⟨rfl, rfl, ?_, ?_, ?_, ?_, ?_, ?_⟩ <;> intro h <;> split_ifs <;>
    simp_all [List.length_append] <;> omega

/-- Transaction state whose pointer set is exactly at the 1024-entry
bound. -/
def xct_full : Xct :=
  { xct_w with pointer_set_ := List.replicate 1024 (PointerAccess.mk 0 0) }

/-- Witness for C5: at the bound the pointer-set call fails with
kErrorCodeXctTooManyReads and changes nothing, and below the bound the
page-version call succeeds. -/
theorem c5_set_bounds_witness :
    kMaxPointerSets ≤ xct_full.pointer_set_.length ∧
    xct_full.add_to_pointer_set 1 2 = (ErrorCode.kErrorCodeXctTooManyReads, xct_full) ∧
    xct_full.page_version_set_.length < kMaxPageVersionSets ∧
    (xct_full.add_to_page_version_set 3 4).1 = ErrorCode.kErrorCodeOk := by
  have h := c5_set_bounds xct_full 1 2 3 4
  have h1 : kMaxPointerSets ≤ xct_full.pointer_set_.length := by
    show kMaxPointerSets ≤ (List.replicate 1024 (PointerAccess.mk 0 0)).length
    rw [List.length_replicate]
    decide
  have h2 : xct_full.page_version_set_.length < kMaxPageVersionSets := by
    show (xct_w.page_version_set_).length < kMaxPageVersionSets
    decide
  exact ⟨h1, h.2.2.1 h1, h2, (h.2.2.2.2.2.2.1 h2).1⟩

/-- C10: acquire_local_work_memory fails with
kErrorCodeXctNoMoreLocalWorkMemory and leaves the state unchanged when the
alignment-rounded size plus the alignment-rounded cursor exceeds
local_work_memory_size_; otherwise it succeeds, returns an offset from the
work memory base that is divisible by the alignment, and advances the
cursor to a value that never exceeds local_work_memory_size_. The
hypotheses bound the arguments by their machine widths: the size is a
uint32, the alignment is a positive uint32, the cursor starts within the
work memory, and the work memory size leaves room below 2 to the 64. -/
theorem c10_acquire_local_work_memory (xct : Xct) (size alignment : Nat)
    (hal : 0 < alignment) (hal32 : alignment ≤ kUint32Mod) (hsize : size < kUint32Mod)
    (hcur : xct.local_work_memory_cur_ ≤ xct.local_work_memory_size_)
    (hbound : xct.local_work_memory_size_ + 2 ^ 33 < kUint64Mod) :
    (xct.local_work_memory_size_ <
        align_up size alignment kUint32Mod +
          align_up xct.local_work_memory_cur_ alignment kUint64Mod →
      xct.acquire_local_work_memory size alignment =
        (ErrorCode.kErrorCodeXctNoMoreLocalWorkMemory, xct, none)) ∧
    (align_up size alignment kUint32Mod +
        align_up xct.local_work_memory_cur_ alignment kUint64Mod ≤
          xct.local_work_memory_size_ →
      (xct.acquire_local_work_memory size alignment).1 = ErrorCode.kErrorCodeOk ∧
      (xct.acquire_local_work_memory size alignment).2.2 =
        some (align_up xct.local_work_memory_cur_ alignment kUint64Mod) ∧
      align_up xct.local_work_memory_cur_ alignment kUint64Mod % alignment = 0 ∧
      (xct.acquire_local_work_memory size alignment).2.1.local_work_memory_cur_ =
        align_up size alignment kUint32Mod +
          align_up xct.local_work_memory_cur_ alignment kUint64Mod ∧
      (xct.acquire_local_work_memory size alignment).2.1.local_work_memory_cur_ ≤
        xct.local_work_memory_size_) := by
  have hK32 : kUint32Mod = 2 ^ 32 := rfl
  have hK64 : kUint64Mod = 2 ^ 64 := rfl
  have hmul : (xct.local_work_memory_cur_ / alignment + 1) * alignment =
      xct.local_work_memory_cur_ / alignment * alignment + alignment := by ring
  have hdivle := Nat.div_mul_le_self xct.local_work_memory_cur_ alignment
  have hround_le : (xct.local_work_memory_cur_ / alignment + 1) * alignment ≤
      xct.local_work_memory_cur_ + alignment := by omega
  have hlt64 : (xct.local_work_memory_cur_ / alignment + 1) * alignment < kUint64Mod := by
    omega
  have hb2 : align_up xct.local_work_memory_cur_ alignment kUint64Mod ≤
      xct.local_work_memory_cur_ + alignment := by
    unfold align_up
    split_ifs with h
    · rw [Nat.mod_eq_of_lt hlt64]
      exact hround_le
    · omega
  have hb2dvd : align_up xct.local_work_memory_cur_ alignment kUint64Mod % alignment = 0 := by
    unfold align_up
    split_ifs with h
    · rw [Nat.mod_eq_of_lt hlt64]
      exact Nat.mul_mod_left _ _
    · omega
  have hs2 : align_up size alignment kUint32Mod < kUint32Mod := by
    unfold align_up
    split_ifs with h
    · exact Nat.mod_lt _ (by rw [hK32]; positivity)
    · omega
  have htotal : (align_up size alignment kUint32Mod +
      align_up xct.local_work_memory_cur_ alignment kUint64Mod) % kUint64Mod =
      align_up size alignment kUint32Mod +
        align_up xct.local_work_memory_cur_ alignment kUint64Mod := by
    apply Nat.mod_eq_of_lt
    omega
  refine ⟨?_, ?_⟩ <;> intro hcmp <;>
    simp only [Xct.acquire_local_work_memory, htotal] <;>
    split_ifs with hif
  all_goals first
    | rfl
    | exact absurd hcmp hif
    | exact absurd hif (by omega)
    | exact ⟨rfl, rfl, hb2dvd, rfl, by
        show align_up size alignment kUint32Mod +
            align_up xct.local_work_memory_cur_ alignment kUint64Mod ≤
          xct.local_work_memory_size_
        omega⟩

/-- Witness for C10: a fitting request of 100 bytes at alignment 8 from
cursor 16 succeeds with offset 16 and cursor 120 within the 4096-byte
work memory. -/
theorem c10_acquire_local_work_memory_witness :
    align_up 100 8 kUint32Mod + align_up xct_w.local_work_memory_cur_ 8 kUint64Mod ≤
      xct_w.local_work_memory_size_ ∧
    (xct_w.acquire_local_work_memory 100 8).1 = ErrorCode.kErrorCodeOk ∧
    (xct_w.acquire_local_work_memory 100 8).2.2 = some 16 ∧
    (xct_w.acquire_local_work_memory 100 8).2.1.local_work_memory_cur_ ≤
      xct_w.local_work_memory_size_ := by
  have h := c10_acquire_local_work_memory xct_w 100 8 (by decide) (by decide) (by decide)
    (by decide) (by decide)
  have hfit : align_up 100 8 kUint32Mod + align_up xct_w.local_work_memory_cur_ 8 kUint64Mod ≤
      xct_w.local_work_memory_size_ := by decide
  have h2 := h.2 hfit
  exact ⟨hfit, h2.1, by rw [h2.2.1]; decide, h2.2.2.2.2⟩

/-! ## Composer::DropResult (composer.hpp) -/

/-- The snapshot metadata needed by drop_volatiles: the epoch range the
snapshot covers. -/
structure Snapshot where
  base_epoch_ : Nat
  valid_until_epoch_ : Nat
deriving DecidableEq, Repr

/-- Composer::DropVolatilesArguments: the new snapshot, the partition of
the calling thread, and whether the drop is partitioned. The page chunk
caches are irrelevant to DropResult and omitted. -/
structure DropVolatilesArguments where
  snapshot_ : Snapshot
  my_partition_ : Nat
  partitioned_drop_ : Bool
deriving DecidableEq, Repr

/-- Composer::DropResult: the largest epoch observed recursively, floored
at the valid-until epoch of the snapshot, and whether every volatile page
under the walked page was dropped. -/
structure DropResult where
  max_observed_ : Nat
  dropped_all_ : Bool
deriving DecidableEq, Repr

/-- The DropResult constructor: starts at the valid-until epoch of the
snapshot (the minimum value, making store_max easier) with dropped_all_
true because zero pages inspected means zero failures. -/
def DropResult.construct (args : DropVolatilesArguments) : DropResult :=
  DropResult.mk args.snapshot_.valid_until_epoch_ true

/-- DropResult::combine: store_max on the observed epochs and logical AND
on the dropped flags. -/
def DropResult.combine (self other : DropResult) : DropResult :=
  DropResult.mk (epoch_store_max self.max_observed_ other.max_observed_)
    (self.dropped_all_ && other.dropped_all_)

/-- DropResult::on_rec_observed: a record whose epoch is after the largest
observed epoch raises the maximum and clears dropped_all_. -/
def DropResult.on_rec_observed (self : DropResult) (epoch : Nat) : DropResult :=
  if epoch_before self.max_observed_ epoch then DropResult.mk epoch false else self

/-- Modelled from the spec: missing log_gleaner code that decides the root
volatile drop. The root volatile page is dropped only when every
partition returned no new modifications: max_observed_ equal to the
valid-until epoch and dropped_all_ true. -/
def drop_root_volatile_decision (results : List DropResult) (valid_until_epoch : Nat) : Bool :=
  results.all fun r => r.max_observed_ == valid_until_epoch && r.dropped_all_

/-- The DropResult values drop_volatiles can return for a snapshot whose
valid-until epoch is v: the fresh result updated by any sequence of
on_rec_observed calls and combines with results of the same shape. -/
inductive DropResult.Reach (v : Nat) : DropResult → Prop
  | construct : DropResult.Reach v (DropResult.mk v true)
  | observed (r : DropResult) (e : Nat) :
      DropResult.Reach v r → DropResult.Reach v (r.on_rec_observed e)
  | combined (r s : DropResult) :
      DropResult.Reach v r → DropResult.Reach v s → DropResult.Reach v (r.combine s)

/-- As DropResult.Reach, but every record epoch fed to on_rec_observed
lies in the cyclic half-window at or after the valid-until epoch, as is
the case for the record epochs a drop pass can see. -/
inductive DropResult.ReachW (v : Nat) : DropResult → Prop
  | construct : DropResult.ReachW v (DropResult.mk v true)
  | observed (r : DropResult) (e : Nat) :
      DropResult.ReachW v r → 0 < e → e < kEpochMod → (e = v ∨ epoch_before v e = true) →
      DropResult.ReachW v (r.on_rec_observed e)
  | combined (r s : DropResult) :
      DropResult.ReachW v r → DropResult.ReachW v s →
      DropResult.ReachW v (r.combine s)

/-- An epoch is never cyclically before itself. -/
theorem epoch_before_irrefl (a : Nat) : epoch_before a a = false := by
  unfold epoch_before
  have h : a + kEpochMod - a = kEpochMod := by unfold kEpochMod; omega
  simp [h]

/-- Invariant of every DropResult reachable for a snapshot valid until v
when all observed record epochs lie in the half window at or after v: the
observed maximum is a valid epoch in that window, and it moved past v only
with dropped_all_ already cleared. -/
theorem dropresult_reachw_invariant {v : Nat} {r : DropResult}
    (hv0 : 0 < v) (hv : v < kEpochMod) (h : DropResult.ReachW v r) :
    0 < r.max_observed_ ∧ r.max_observed_ < kEpochMod ∧
    (r.max_observed_ = v ∨ epoch_before v r.max_observed_ = true) ∧
    (epoch_before v r.max_observed_ = true → r.dropped_all_ = false) := by
  induction h with
  | construct =>
    exact ⟨hv0, hv, Or.inl rfl, fun hb => absurd hb (by simp [epoch_before_irrefl])⟩
  | observed r e hr he0 he hwin ih =>
    unfold DropResult.on_rec_observed
    split_ifs with hb
    · exact ⟨he0, he, hwin, fun _ => rfl⟩
    · exact ih
  | combined r s hr hs ihr ihs =>
    obtain ⟨hr0, hr1, hr2, hr3⟩ := ihr
    obtain ⟨hs0, hs1, hs2, hs3⟩ := ihs
    unfold DropResult.combine epoch_store_max epoch_is_valid
    split_ifs with h1 h2
    · exact ⟨hs0, hs1, hs2, fun hb => by simp [hs3 hb]⟩
    · exact ⟨hr0, hr1, hr2, fun hb => by simp [hr3 hb]⟩
    · exact ⟨hr0, hr1, hr2, fun hb => by simp [hr3 hb]⟩

/-- C9 (amended): for every DropResult constructed from the arguments and
updated by any sequence of on_rec_observed calls whose record epochs are
valid and lie in the cyclic half window at or after the valid-until epoch,
and combine calls whose operand satisfies the same property, the observed
maximum is never cyclically before the valid-until epoch, and whenever it
is strictly after the valid-until epoch, dropped_all_ is false. -/
theorem c9_dropresult_invariant (v : Nat) (r : DropResult)
    (hv0 : 0 < v) (hv : v < kEpochMod) (h : DropResult.ReachW v r) :
    epoch_before r.max_observed_ v = false ∧
    (epoch_before v r.max_observed_ = true → r.dropped_all_ = false) := by
  obtain ⟨h0, h1, h2, h3⟩ := dropresult_reachw_invariant hv0 hv h
  refine ⟨?_, h3⟩
  rcases h2 with h2 | h2
  · rw [h2]
    exact epoch_before_irrefl v
  · rw [epoch_before_iff hv h1] at h2
    cases hb : epoch_before r.max_observed_ v
    · rfl
    · rw [epoch_before_iff h1 hv] at hb
      unfold kEpochMod kEpochHalf at *
      omega

/-- Witness for C9 at the snapshot epoch 10 and the result that observed
the record epoch 12. -/
theorem c9_dropresult_invariant_witness :
    epoch_before 12 10 = false ∧
    (epoch_before 10 12 = true → (DropResult.mk 12 false).dropped_all_ = false) := by
  have h1 := DropResult.ReachW.observed (DropResult.mk 10 true) 12
    DropResult.ReachW.construct (by decide) (by decide) (by decide)
  have he : (DropResult.mk 10 true).on_rec_observed 12 = DropResult.mk 12 false := by decide
  rw [he] at h1
  exact c9_dropresult_invariant 10 (DropResult.mk 12 false) (by decide) (by decide) h1

/-- Counterexample to C9 as stated: with unrestricted record epochs the
observed maximum can travel around the epoch circle and end up cyclically
before the valid-until epoch. From the fresh result for valid-until 10,
observing epoch 2147483657 and then epoch 8 yields max_observed_ = 8,
which is before 10. -/
theorem c9_reach_counterexample :
    DropResult.Reach 10 (DropResult.mk 8 false) ∧ epoch_before 8 10 = true := by
  constructor
  · have h1 := DropResult.Reach.observed (DropResult.mk 10 true) 2147483657
      DropResult.Reach.construct
    have he1 : (DropResult.mk 10 true).on_rec_observed 2147483657 =
        DropResult.mk 2147483657 false := by decide
    rw [he1] at h1
    have h2 := DropResult.Reach.observed (DropResult.mk 2147483657 false) 8 h1
    have he2 : (DropResult.mk 2147483657 false).on_rec_observed 8 =
        DropResult.mk 8 false := by decide
    rw [he2] at h2
    exact h2
  · decide

set_option maxHeartbeats 1600000 in
/-- store_max facts on the half window at or after a valid epoch v: it is
commutative there, returns one of its arguments, never an epoch before
either argument, keeps the window, and v itself is its identity. -/
theorem window_store_max (v x y : Nat) (hv0 : 0 < v) (hv : v < kEpochMod)
    (hx0 : 0 < x) (hx1 : x < kEpochMod) (hx2 : x = v ∨ epoch_before v x = true)
    (hy0 : 0 < y) (hy1 : y < kEpochMod) (hy2 : y = v ∨ epoch_before v y = true) :
    epoch_store_max x y = epoch_store_max y x ∧
    (epoch_store_max x y = x ∨ epoch_store_max x y = y) ∧
    epoch_before (epoch_store_max x y) x = false ∧
    epoch_before (epoch_store_max x y) y = false ∧
    epoch_store_max v x = x ∧ epoch_store_max x v = x ∧
    (epoch_store_max x y = v ∨ epoch_before v (epoch_store_max x y) = true) ∧
    0 < epoch_store_max x y ∧ epoch_store_max x y < kEpochMod := by
  have hx' : (v ≤ x ∧ x - v < kEpochHalf) ∨ (x + kEpochHalf < v) := by
    rcases hx2 with h | h
    · subst h; left; unfold kEpochHalf; omega
    · rw [epoch_before_iff hv hx1] at h; omega
  have hy' : (v ≤ y ∧ y - v < kEpochHalf) ∨ (y + kEpochHalf < v) := by
    rcases hy2 with h | h
    · subst h; left; unfold kEpochHalf; omega
    · rw [epoch_before_iff hv hy1] at h; omega
  clear hx2 hy2
  simp only [epoch_store_max, epoch_is_valid, epoch_before, kEpochInvalid,
    kEpochMod, kEpochHalf] at *
  split_ifs <;>
    simp only [Bool.or_eq_true, Bool.and_eq_true, Bool.not_eq_true, decide_eq_true_eq,
      Bool.or_eq_false_iff, Bool.and_eq_false_iff, decide_eq_false_iff_not,
      Bool.not_eq_true', ne_eq, not_lt, not_and, not_le, not_not] at * <;>
    (repeat' apply And.intro) <;>
    first
    | trivial
    | (left; trivial)
    | (right; trivial)
    | omega

/-- Associativity of store_max on the half window at or after v. -/
theorem window_store_max_assoc (v x y z : Nat) (hv0 : 0 < v) (hv : v < kEpochMod)
    (hx0 : 0 < x) (hx1 : x < kEpochMod) (hx2 : x = v ∨ epoch_before v x = true)
    (hy0 : 0 < y) (hy1 : y < kEpochMod) (hy2 : y = v ∨ epoch_before v y = true)
    (hz0 : 0 < z) (hz1 : z < kEpochMod) (hz2 : z = v ∨ epoch_before v z = true) :
    epoch_store_max (epoch_store_max x y) z = epoch_store_max x (epoch_store_max y z) := by
  have hx' : (v ≤ x ∧ x - v < kEpochHalf) ∨ (x + kEpochHalf < v) := by
    rcases hx2 with h | h
    · subst h; left; unfold kEpochHalf; omega
    · rw [epoch_before_iff hv hx1] at h; omega
  have hy' : (v ≤ y ∧ y - v < kEpochHalf) ∨ (y + kEpochHalf < v) := by
    rcases hy2 with h | h
    · subst h; left; unfold kEpochHalf; omega
    · rw [epoch_before_iff hv hy1] at h; omega
  have hz' : (v ≤ z ∧ z - v < kEpochHalf) ∨ (z + kEpochHalf < v) := by
    rcases hz2 with h | h
    · subst h; left; unfold kEpochHalf; omega
    · rw [epoch_before_iff hv hz1] at h; omega
  clear hx2 hy2 hz2
  simp only [epoch_store_max, epoch_is_valid, epoch_before, kEpochInvalid,
    kEpochMod, kEpochHalf] at *
  split_ifs <;>
    simp only [Bool.or_eq_true, Bool.and_eq_true, Bool.not_eq_true, decide_eq_true_eq,
      decide_eq_false_iff_not, Bool.not_eq_true', ne_eq, not_lt, not_and, not_le,
      not_not] at * <;>
    omega

/-- C4 (amended): on DropResults whose observed maxima are valid epochs in
the cyclic half window at or after the valid-until epoch v (the shape
drop_volatiles produces when record epochs stay in that window), combine
takes the epoch-ordering maximum of the two max_observed_ fields and the
logical AND of the two dropped_all_ fields, is commutative and
associative, and the freshly constructed DropResult (max_observed_ =
valid_until_epoch, dropped_all_ = true) is a left and right identity; the
root volatile page is dropped only when every partition result has
max_observed_ equal to valid_until_epoch and dropped_all_ true. -/
theorem c4_dropresult_combine (v : Nat) (a b c : DropResult)
    (args : DropVolatilesArguments) (results : List DropResult)
    (hv0 : 0 < v) (hv : v < kEpochMod)
    (ha0 : 0 < a.max_observed_) (ha1 : a.max_observed_ < kEpochMod)
    (ha2 : a.max_observed_ = v ∨ epoch_before v a.max_observed_ = true)
    (hb0 : 0 < b.max_observed_) (hb1 : b.max_observed_ < kEpochMod)
    (hb2 : b.max_observed_ = v ∨ epoch_before v b.max_observed_ = true)
    (hc0 : 0 < c.max_observed_) (hc1 : c.max_observed_ < kEpochMod)
    (hc2 : c.max_observed_ = v ∨ epoch_before v c.max_observed_ = true)
    (hargs : args.snapshot_.valid_until_epoch_ = v) :
    ((a.combine b).max_observed_ = a.max_observed_ ∨
      (a.combine b).max_observed_ = b.max_observed_) ∧
    epoch_before (a.combine b).max_observed_ a.max_observed_ = false ∧
    epoch_before (a.combine b).max_observed_ b.max_observed_ = false ∧
    (a.combine b).dropped_all_ = (a.dropped_all_ && b.dropped_all_) ∧
    a.combine b = b.combine a ∧
    (a.combine b).combine c = a.combine (b.combine c) ∧
    (DropResult.construct args).combine a = a ∧
    a.combine (DropResult.construct args) = a ∧
    (drop_root_volatile_decision results v = true →
      ∀ r, r ∈ results → r.max_observed_ = v ∧ r.dropped_all_ = true) := by
  obtain ⟨am, ad⟩ := a
  obtain ⟨bm, bd⟩ := b
  obtain ⟨cm, cd⟩ := c
  simp only at ha0 ha1 ha2 hb0 hb1 hb2 hc0 hc1 hc2
  obtain ⟨hcm, hone, hnba, hnbb, hvx, hxv, hwin, hg0, hg1⟩ :=
    window_store_max v am bm hv0 hv ha0 ha1 ha2 hb0 hb1 hb2
  obtain ⟨_, _, _, _, hvxa, hxva, _, _, _⟩ :=
    window_store_max v am am hv0 hv ha0 ha1 ha2 ha0 ha1 ha2
  have hassoc := window_store_max_assoc v am bm cm hv0 hv ha0 ha1 ha2 hb0 hb1 hb2 hc0 hc1 hc2
  refine ⟨hone, hnba, hnbb, rfl, ?_, ?_, ?_, ?_, ?_⟩
  · simp only [DropResult.combine, DropResult.mk.injEq]
    exact ⟨hcm, Bool.and_comm ad bd⟩
  · simp only [DropResult.combine, DropResult.mk.injEq]
    exact ⟨hassoc, Bool.and_assoc ad bd cd⟩
  · simp only [DropResult.construct, hargs, DropResult.combine, DropResult.mk.injEq]
    exact ⟨hvxa, Bool.true_and ad⟩
  · simp only [DropResult.construct, hargs, DropResult.combine, DropResult.mk.injEq]
    exact ⟨hxva, Bool.and_true ad⟩
  · intro h r hr
    unfold drop_root_volatile_decision at h
    rw [List.all_eq_true] at h
    have hh := h r hr
    simp only [Bool.and_eq_true, beq_iff_eq] at hh
    exact hh

/-- Witness for C4 at the snapshot epoch 5 with three concrete results in
its window. -/
theorem c4_dropresult_combine_witness :
    (DropResult.mk 6 false).combine (DropResult.mk 5 true) =
      (DropResult.mk 5 true).combine (DropResult.mk 6 false) ∧
    ((DropResult.mk 6 false).combine (DropResult.mk 5 true)).combine (DropResult.mk 7 false) =
      (DropResult.mk 6 false).combine
        ((DropResult.mk 5 true).combine (DropResult.mk 7 false)) ∧
    (DropResult.construct
        (DropVolatilesArguments.mk (Snapshot.mk 2 5) 0 true)).combine (DropResult.mk 6 false) =
      DropResult.mk 6 false := by
  have h := c4_dropresult_combine 5 (DropResult.mk 6 false) (DropResult.mk 5 true)
    (DropResult.mk 7 false) (DropVolatilesArguments.mk (Snapshot.mk 2 5) 0 true)
    [] (by decide) (by decide) (by decide) (by decide) (by decide) (by decide)
    (by decide) (by decide) (by decide) (by decide) (by decide) rfl
  exact ⟨h.2.2.2.2.1, h.2.2.2.2.2.1, h.2.2.2.2.2.2.1⟩

/-- Counterexample to C4 as stated: two results both produced by
drop_volatiles updates for the same snapshot (valid until epoch 1) whose
observed maxima sit half an epoch cycle apart; combine is then not
commutative because neither epoch is cyclically before the other, so there
is no epoch-ordering maximum. -/
theorem c4_combine_counterexample :
    DropResult.Reach 1 (DropResult.mk 1 true) ∧
    DropResult.Reach 1 (DropResult.mk 2147483649 false) ∧
    (DropResult.mk 1 true).combine (DropResult.mk 2147483649 false) ≠
      (DropResult.mk 2147483649 false).combine (DropResult.mk 1 true) := by
  refine ⟨DropResult.Reach.construct, ?_, by decide⟩
  have h1 := DropResult.Reach.observed (DropResult.mk 1 true) 1073741825
    DropResult.Reach.construct
  have he1 : (DropResult.mk 1 true).on_rec_observed 1073741825 =
      DropResult.mk 1073741825 false := by decide
  rw [he1] at h1
  have h2 := DropResult.Reach.observed (DropResult.mk 1073741825 false) 2147483649 h1
  have he2 : (DropResult.mk 1073741825 false).on_rec_observed 2147483649 =
      DropResult.mk 2147483649 false := by decide
  rw [he2] at h2
  exact h2

/-- Witness for C1: from previous id (5, 3), dependency id (5, 7) and
commit epoch 6 the issued id is strictly larger than both inputs and lies
in the output epoch. -/
theorem c1_issue_next_id_witness :
    XctId.before (XctId.mk 5 3) (issue_next_id (XctId.mk 5 3) (XctId.mk 5 7) 6).1 = true ∧
    XctId.before (XctId.mk 5 7) (issue_next_id (XctId.mk 5 3) (XctId.mk 5 7) 6).1 = true ∧
    (issue_next_id (XctId.mk 5 3) (XctId.mk 5 7) 6).1.epoch =
      (issue_next_id (XctId.mk 5 3) (XctId.mk 5 7) 6).2 := by
  have h := c1_issue_next_id (XctId.mk 5 3) (XctId.mk 5 7) 6 (by decide) (by decide)
    (by decide) (by decide) (by decide) (by decide) (by decide) (by decide)
  exact ⟨h.1, h.2.1, h.2.2.1⟩

/-! ## TPC-B on array storage (test_array_tpcb.cpp) -/

/-- Number of branches. -/
def BRANCHES : Nat := 8

/-- Number of tellers in one branch. -/
def TELLERS : Nat := 2

/-- Number of accounts in one branch. -/
def ACCOUNTS : Nat := 4

/-- Accounts per teller. -/
def ACCOUNTS_PER_TELLER : Nat := ACCOUNTS / TELLERS

/-- Transactions per thread. -/
def XCTS_PER_THREAD : Nat := 100

/-- Number of threads in scenario S2. -/
def MAX_TEST_THREADS : Nat := 4

/-- Total number of history records. -/
def HISTORIES : Nat := XCTS_PER_THREAD * MAX_TEST_THREADS

/-- Initial balance of one account. -/
def INITIAL_ACCOUNT_BALANCE : Int := 100

/-- One history record: the ids of the rows the transaction touched and
the transferred amount. -/
structure HistoryData where
  account_id_ : Nat
  teller_id_ : Nat
  branch_id_ : Nat
  amount_ : Int
deriving DecidableEq, Repr

/-- The all-zero history record the table is populated with. -/
def hist0 : HistoryData := HistoryData.mk 0 0 0 0

/-- The TPC-B tables: balances of branches, tellers and accounts, and the
history records. -/
structure TpcbState where
  branches : List Int
  tellers : List Int
  accounts : List Int
  histories : List HistoryData
deriving DecidableEq, Repr

/-- The tables as CreateTpcbTablesTask populates them: every branch starts
at INITIAL_ACCOUNT_BALANCE * ACCOUNTS, every teller at
INITIAL_ACCOUNT_BALANCE * ACCOUNTS_PER_TELLER, every account at
INITIAL_ACCOUNT_BALANCE, every history record zeroed. -/
def initial_tpcb_state : TpcbState :=
  TpcbState.mk
    (List.replicate BRANCHES (INITIAL_ACCOUNT_BALANCE * (ACCOUNTS : Int)))
    (List.replicate (BRANCHES * TELLERS) (INITIAL_ACCOUNT_BALANCE * (ACCOUNTS_PER_TELLER : Int)))
    (List.replicate (BRANCHES * ACCOUNTS) INITIAL_ACCOUNT_BALANCE)
    (List.replicate HISTORIES hist0)

/-- One committed TPC-B transaction of RunTpcbTask: the chosen account,
the preassigned history slot, and the amount. The teller and branch are
derived from the account id exactly as in try_transaction. -/
structure TpcbTxn where
  account_id : Nat
  history_id : Nat
  amount : Int
deriving DecidableEq, Repr

/-- RunTpcbTask::try_transaction on the table state: adds the amount to
the one branch, one teller and one account derived from the account id,
and records one history entry in the transaction's history slot. -/
def try_transaction (st : TpcbState) (t : TpcbTxn) : TpcbState :=
  let branch_id := t.account_id / ACCOUNTS
  let teller_id := t.account_id / ACCOUNTS_PER_TELLER
  TpcbState.mk
    (st.branches.set branch_id (st.branches.getD branch_id 0 + t.amount))
    (st.tellers.set teller_id (st.tellers.getD teller_id 0 + t.amount))
    (st.accounts.set t.account_id (st.accounts.getD t.account_id 0 + t.amount))
    (st.histories.set t.history_id
      (HistoryData.mk t.account_id teller_id branch_id t.amount))

/-- Serial execution of a list of committed transactions from the initial
tables; by serializability the concurrent run of scenario S2 is equivalent
to one such order. -/
def run_tpcb (txns : List TpcbTxn) : TpcbState :=
  txns.foldl try_transaction initial_tpcb_state

/-- Scenario S2: four threads each commit one hundred transactions; every
transaction touches a valid account and its own history slot, and history
slots are pairwise distinct (slot client * 100 + i); amounts lie in the
range 1 to 20. -/
def tpcb_scenario (txns : List TpcbTxn) : Prop :=
  txns.length = MAX_TEST_THREADS * XCTS_PER_THREAD ∧
  (∀ t ∈ txns, t.account_id < BRANCHES * ACCOUNTS ∧ t.history_id < HISTORIES ∧
    1 ≤ t.amount ∧ t.amount ≤ 20) ∧
  (txns.map TpcbTxn.history_id).Nodup

/-- Adding a to the entry at a valid index adds a to the list sum. -/
theorem list_sum_set_add (a : Int) :
    ∀ (l : List Int) (i : Nat), i < l.length →
      (l.set i (l.getD i 0 + a)).sum = l.sum + a := by
  intro l
  induction l with
  | nil => intro i h; simp at h
  | cons x xs ih =>
    intro i h
    cases i with
    | zero => simp [List.sum_cons]; omega
    | succ i =>
      have hlen : i < xs.length := by simpa using h
      simp only [List.set, List.getD_cons_succ, List.sum_cons, ih i hlen]
      omega

/-- Setting one index leaves every other index unchanged. -/
theorem list_getD_set_ne {α : Type} (x d : α) :
    ∀ (l : List α) (i j : Nat), i ≠ j → (l.set i x).getD j d = l.getD j d := by
  intro l
  induction l with
  | nil => intro i j _; simp
  | cons y ys ih =>
    intro i j hne
    cases i with
    | zero =>
      cases j with
      | zero => exact absurd rfl hne
      | succ j => simp [List.set]
    | succ i =>
      cases j with
      | zero => simp [List.set]
      | succ j => simp only [List.set, List.getD_cons_succ]; exact ih i j (by omega)

/-- Overwriting a history slot whose amount is zero adds the new amount to
the sum of all history amounts. -/
theorem list_hist_sum_set (hd : HistoryData) :
    ∀ (l : List HistoryData) (i : Nat), i < l.length →
      (l.getD i hist0).amount_ = 0 →
      ((l.set i hd).map HistoryData.amount_).sum =
        (l.map HistoryData.amount_).sum + hd.amount_ := by
  intro l
  induction l with
  | nil => intro i h; simp at h
  | cons x xs ih =>
    intro i h hz
    cases i with
    | zero =>
      simp only [List.getD_cons_zero] at hz
      simp [List.set, List.sum_cons, hz]
      omega
    | succ i =>
      have hlen : i < xs.length := by simpa using h
      simp only [List.getD_cons_succ] at hz
      simp only [List.set, List.map_cons, List.sum_cons, ih i hlen hz]
      omega

/-- Sums of all four tables after running any transaction list with valid
ids, distinct history slots and zeroed target history slots: each table
sum grows by the sum of the amounts. -/
theorem run_tpcb_sums :
    ∀ (txns : List TpcbTxn) (st : TpcbState),
      st.branches.length = BRANCHES →
      st.tellers.length = BRANCHES * TELLERS →
      st.accounts.length = BRANCHES * ACCOUNTS →
      st.histories.length = HISTORIES →
      (∀ t ∈ txns, t.account_id < BRANCHES * ACCOUNTS ∧ t.history_id < HISTORIES) →
      (∀ t ∈ txns, (st.histories.getD t.history_id hist0).amount_ = 0) →
      (txns.map TpcbTxn.history_id).Nodup →
      (txns.foldl try_transaction st).branches.sum =
          st.branches.sum + (txns.map TpcbTxn.amount).sum ∧
      (txns.foldl try_transaction st).tellers.sum =
          st.tellers.sum + (txns.map TpcbTxn.amount).sum ∧
      (txns.foldl try_transaction st).accounts.sum =
          st.accounts.sum + (txns.map TpcbTxn.amount).sum ∧
      ((txns.foldl try_transaction st).histories.map HistoryData.amount_).sum =
          (st.histories.map HistoryData.amount_).sum + (txns.map TpcbTxn.amount).sum := by
  intro txns
  induction txns with
  | nil =>
    intro st _ _ _ _ _ _ _
    simp
  | cons t ts ih =>
    intro st hb ht ha hh hval hz hnd
    obtain ⟨hv1, hv2⟩ := hval t (List.mem_cons_self t ts)
    have hbranch : t.account_id / ACCOUNTS < BRANCHES := by
      unfold BRANCHES ACCOUNTS at *
      omega
    have hteller : t.account_id / ACCOUNTS_PER_TELLER < BRANCHES * TELLERS := by
      simp only [ACCOUNTS_PER_TELLER, BRANCHES, ACCOUNTS, TELLERS] at *
      omega
    have hb1 : (try_transaction st t).branches.length = BRANCHES := by
      simp [try_transaction, hb]
    have ht1 : (try_transaction st t).tellers.length = BRANCHES * TELLERS := by
      simp [try_transaction, ht]
    have ha1 : (try_transaction st t).accounts.length = BRANCHES * ACCOUNTS := by
      simp [try_transaction, ha]
    have hh1 : (try_transaction st t).histories.length = HISTORIES := by
      simp [try_transaction, hh]
    have hbs : (try_transaction st t).branches.sum = st.branches.sum + t.amount :=
      list_sum_set_add t.amount st.branches _ (by rw [hb]; exact hbranch)
    have hts : (try_transaction st t).tellers.sum = st.tellers.sum + t.amount :=
      list_sum_set_add t.amount st.tellers _ (by rw [ht]; exact hteller)
    have has : (try_transaction st t).accounts.sum = st.accounts.sum + t.amount :=
      list_sum_set_add t.amount st.accounts _ (by rw [ha]; exact hv1)
    have hhs : ((try_transaction st t).histories.map HistoryData.amount_).sum =
        (st.histories.map HistoryData.amount_).sum + t.amount :=
      list_hist_sum_set _ st.histories t.history_id (by rw [hh]; exact hv2)
        (hz t (List.mem_cons_self t ts))
    have hhead : t.history_id ∉ ts.map TpcbTxn.history_id := by
      have hnd2 : (t.history_id :: ts.map TpcbTxn.history_id).Nodup := by
        simpa using hnd
      exact (List.nodup_cons.mp hnd2).1
    have hz2 : ∀ t2 ∈ ts,
        ((try_transaction st t).histories.getD t2.history_id hist0).amount_ = 0 := by
      intro t2 ht2
      have hne : t.history_id ≠ t2.history_id := fun he =>
        hhead (he ▸ List.mem_map_of_mem TpcbTxn.history_id ht2)
      simp only [try_transaction]
      rw [list_getD_set_ne _ _ _ _ _ hne]
      exact hz t2 (List.mem_cons_of_mem t ht2)
    have hnd2 : (ts.map TpcbTxn.history_id).Nodup := by
      have h1 : (t.history_id :: ts.map TpcbTxn.history_id).Nodup := by simpa using hnd
      exact (List.nodup_cons.mp h1).2
    obtain ⟨ihb, iht, iha, ihh⟩ := ih (try_transaction st t) hb1 ht1 ha1 hh1
      (fun t2 h2 => hval t2 (List.mem_cons_of_mem t h2)) hz2 hnd2
    refine ⟨?_, ?_, ?_, ?_⟩ <;>
      simp only [List.foldl_cons, List.map_cons, List.sum_cons, ihb, iht, iha, ihh,
        hbs, hts, has, hhs] <;>
      omega

/-- getD on a replicated list with the replicated element as fallback. -/
theorem list_getD_replicate_self {α : Type} (a : α) :
    ∀ (n i : Nat), (List.replicate n a).getD i a = a := by
  intro n
  induction n with
  | zero => intro i; simp
  | succ n ih =>
    intro i
    cases i with
    | zero => simp [List.replicate]
    | succ i => simpa [List.replicate] using ih i

/-- Table sums after any scenario run: every balance table sums to the
initial 3200 plus the sum of all amounts, and the history amounts sum to
the sum of all amounts alone. -/
theorem tpcb_scenario_sums (txns : List TpcbTxn) (h : tpcb_scenario txns) :
    (run_tpcb txns).branches.sum = 3200 + (txns.map TpcbTxn.amount).sum ∧
    (run_tpcb txns).tellers.sum = 3200 + (txns.map TpcbTxn.amount).sum ∧
    (run_tpcb txns).accounts.sum = 3200 + (txns.map TpcbTxn.amount).sum ∧
    ((run_tpcb txns).histories.map HistoryData.amount_).sum =
      (txns.map TpcbTxn.amount).sum := by
  obtain ⟨hlen, hval, hnd⟩ := h
  have hz : ∀ t ∈ txns,
      (initial_tpcb_state.histories.getD t.history_id hist0).amount_ = 0 := by
    intro t _
    show ((List.replicate HISTORIES hist0).getD t.history_id hist0).amount_ = 0
    rw [list_getD_replicate_self]
    rfl
  obtain ⟨hb, ht, ha, hh⟩ := run_tpcb_sums txns initial_tpcb_state
    (by simp [initial_tpcb_state]) (by simp [initial_tpcb_state])
    (by simp [initial_tpcb_state]) (by simp [initial_tpcb_state])
    (fun t h2 => ⟨(hval t h2).1, (hval t h2).2.1⟩) hz hnd
  have hbsum : initial_tpcb_state.branches.sum = 3200 := by
    simp [initial_tpcb_state, List.sum_replicate, BRANCHES, ACCOUNTS,
      INITIAL_ACCOUNT_BALANCE]
  have htsum : initial_tpcb_state.tellers.sum = 3200 := by
    simp [initial_tpcb_state, List.sum_replicate, BRANCHES, ACCOUNTS, TELLERS,
      ACCOUNTS_PER_TELLER, INITIAL_ACCOUNT_BALANCE]
  have hasum : initial_tpcb_state.accounts.sum = 3200 := by
    simp [initial_tpcb_state, List.sum_replicate, BRANCHES, ACCOUNTS,
      INITIAL_ACCOUNT_BALANCE]
  have hhsum : (initial_tpcb_state.histories.map HistoryData.amount_).sum = 0 := by
    simp [initial_tpcb_state, List.map_replicate, List.sum_replicate, hist0]
  unfold run_tpcb
  rw [hb, ht, ha, hh, hbsum, htsum, hasum, hhsum]
  exact ⟨rfl, rfl, rfl, by omega⟩

/-- C3 (amended): after scenario S2 the sum of all branch balances equals
8 * 400 plus the sum of all amounts, and the same sum equals the sum of
all teller balances and the sum of all account balances; the sum of all
history amounts equals the sum of all amounts alone, so the branch sum
equals 8 * 400 plus the sum of all history amounts. -/
theorem c3_tpcb_sums (txns : List TpcbTxn) (h : tpcb_scenario txns) :
    (run_tpcb txns).branches.sum = 8 * 400 + (txns.map TpcbTxn.amount).sum ∧
    (run_tpcb txns).tellers.sum = (run_tpcb txns).branches.sum ∧
    (run_tpcb txns).accounts.sum = (run_tpcb txns).branches.sum ∧
    ((run_tpcb txns).histories.map HistoryData.amount_).sum =
      (txns.map TpcbTxn.amount).sum ∧
    (run_tpcb txns).branches.sum =
      8 * 400 + ((run_tpcb txns).histories.map HistoryData.amount_).sum := by
  obtain ⟨hb, ht, ha, hh⟩ := tpcb_scenario_sums txns h
  refine ⟨by omega, by omega, by omega, hh, by omega⟩

/-- The concrete scenario run used by the C3 witness and counterexample:
four hundred transactions on account 0 with amount 1, history slots 0 to
399. -/
def txns400 : List TpcbTxn :=
  (List.range (MAX_TEST_THREADS * XCTS_PER_THREAD)).map fun i => TpcbTxn.mk 0 i 1

/-- txns400 satisfies the S2 scenario conditions. -/
theorem txns400_scenario : tpcb_scenario txns400 := by
  refine ⟨by simp [txns400], ?_, ?_⟩
  · intro t ht
    simp only [txns400, List.mem_map, List.mem_range] at ht
    obtain ⟨i, hi, rfl⟩ := ht
    refine ⟨by norm_num [BRANCHES, ACCOUNTS], ?_, by norm_num, by norm_num⟩
    simpa [HISTORIES] using hi
  · have hcomp : (TpcbTxn.history_id ∘ fun i => TpcbTxn.mk 0 i 1) = id := rfl
    have hmap : txns400.map TpcbTxn.history_id =
        List.range (MAX_TEST_THREADS * XCTS_PER_THREAD) := by
      rw [txns400, List.map_map, hcomp, List.map_id]
    rw [hmap]
    exact List.nodup_range _
/-- Witness for C3 at the concrete run txns400. -/
theorem c3_tpcb_sums_witness :
    tpcb_scenario txns400 ∧
    (run_tpcb txns400).branches.sum = 8 * 400 + (txns400.map TpcbTxn.amount).sum ∧
    ((run_tpcb txns400).histories.map HistoryData.amount_).sum =
      (txns400.map TpcbTxn.amount).sum := by
  have h := c3_tpcb_sums txns400 txns400_scenario
  exact ⟨txns400_scenario, h.1, h.2.2.2.1⟩

/-- Counterexample to C3 as stated: in the concrete scenario run txns400
the sum of all branch balances does not equal the sum of all history
amounts; the history amounts miss the 8 * 400 of initial balance. -/
theorem c3_sum_counterexample :
    tpcb_scenario txns400 ∧
    (run_tpcb txns400).branches.sum ≠
      ((run_tpcb txns400).histories.map HistoryData.amount_).sum := by
  obtain ⟨hb, _, _, hh⟩ := tpcb_scenario_sums txns400 txns400_scenario
  exact ⟨txns400_scenario, by omega⟩

/-! ## Snapshot map-reduce worker (mapreduce_base_impl.cpp) -/

/-- The gleaner state a worker observes through its parent_ pointer. -/
structure GleanerState where
  processing_epoch_ : Nat
  completed_count_ : Nat
  all_count_ : Nat
  stop_requested_ : Bool
  valid_until_epoch_ : Nat
deriving DecidableEq, Repr

/-- Outcome of one wait_for_next_epoch call: the return value, whether the
condition variable was waited on, whether the caller woke the gleaner, and
the gleaner state after the completed-count increment. -/
structure MRWaitOutcome where
  retval : Bool
  waited : Bool
  woke_gleaner : Bool
  post : GleanerState
deriving DecidableEq, Repr

/-- MapReduceBase::wait_for_next_epoch, embedded from
mapreduce_base_impl.cpp. The parent interactions are explicit state: st is
the gleaner state when the call starts, wake the gleaner state at the
moment the condition-variable wait returns (the theorem constrains it to
satisfy the wait predicate). get_next_processing_epoch is the epoch after
the current processing epoch; modelled from the spec because the gleaner
header is not under the verified sources. The next epoch is taken from the
state before the completed-count increment, exactly as the code reads it
before increment_completed_count. -/
def MapReduceBase.wait_for_next_epoch (st wake : GleanerState) : MRWaitOutcome :=
  let next_epoch := epoch_one_more st.processing_epoch_
  let st1 := { st with completed_count_ := st.completed_count_ + 1 }
  let woke := st1.completed_count_ == st1.all_count_
  if epoch_before st.valid_until_epoch_ next_epoch then
    MRWaitOutcome.mk false false woke st1
  else
    MRWaitOutcome.mk (!wake.stop_requested_) true woke st1

/-- C6: wait_for_next_epoch computes the next processing epoch from the
state before incrementing completed_count_, increments completed_count_
exactly once, wakes the gleaner exactly when the incremented count reaches
all_count_, returns false without waiting when the next epoch is after the
snapshot valid-until epoch, and otherwise waits until the gleaner
publishes the next epoch or requests stop and returns true iff stop was
not requested. -/
theorem c6_wait_for_next_epoch (st wake : GleanerState)
    (hwake : wake.processing_epoch_ = epoch_one_more st.processing_epoch_ ∨
      wake.stop_requested_ = true) :
    (MapReduceBase.wait_for_next_epoch st wake).post =
      { st with completed_count_ := st.completed_count_ + 1 } ∧
    ((MapReduceBase.wait_for_next_epoch st wake).woke_gleaner = true ↔
      st.completed_count_ + 1 = st.all_count_) ∧
    (epoch_before st.valid_until_epoch_ (epoch_one_more st.processing_epoch_) = true →
      (MapReduceBase.wait_for_next_epoch st wake).retval = false ∧
      (MapReduceBase.wait_for_next_epoch st wake).waited = false) ∧
    (epoch_before st.valid_until_epoch_ (epoch_one_more st.processing_epoch_) = false →
      (MapReduceBase.wait_for_next_epoch st wake).waited = true ∧
      ((MapReduceBase.wait_for_next_epoch st wake).retval = true ↔
        wake.stop_requested_ = false)) := by
  simp only [MapReduceBase.wait_for_next_epoch]
  split_ifs with h
  · refine ⟨rfl, by simp, fun _ => ⟨rfl, rfl⟩, fun hcon => absurd h (by simp [hcon])⟩
  · refine ⟨rfl, by simp, fun hcon => absurd hcon (by simp [h]), fun _ => ⟨rfl, by simp⟩⟩

/-- Witness for C6: gleaner at processing epoch 5, valid until 9, two of
three workers already done; the call increments the count to the full
three, wakes the gleaner, waits, and returns true because stop was not
requested when the wait returned. -/
theorem c6_wait_for_next_epoch_witness :
    (MapReduceBase.wait_for_next_epoch (GleanerState.mk 5 2 3 false 9)
      (GleanerState.mk 6 3 3 false 9)).post =
      GleanerState.mk 5 3 3 false 9 ∧
    ((MapReduceBase.wait_for_next_epoch (GleanerState.mk 5 2 3 false 9)
      (GleanerState.mk 6 3 3 false 9)).woke_gleaner = true ↔ 2 + 1 = 3) ∧
    (epoch_before 9 (epoch_one_more 5) = false →
      (MapReduceBase.wait_for_next_epoch (GleanerState.mk 5 2 3 false 9)
        (GleanerState.mk 6 3 3 false 9)).waited = true ∧
      ((MapReduceBase.wait_for_next_epoch (GleanerState.mk 5 2 3 false 9)
        (GleanerState.mk 6 3 3 false 9)).retval = true ↔ false = false)) := by
  have h := c6_wait_for_next_epoch (GleanerState.mk 5 2 3 false 9)
    (GleanerState.mk 6 3 3 false 9) (by left; decide)
  exact ⟨h.1, h.2.1, h.2.2.2⟩

/-- Events a worker performs that are visible to the parent gleaner or
mark its own lifecycle. -/
inductive MREvent
  | epochCall
  | errorIncr
  | wakeup
  | uninitCall
  | exitIncr
deriving DecidableEq, Repr

/-- The observations of one iteration of the handle loop: whether
stop_requested was seen true at the loop head, whether handle_epoch
succeeded, and whether the following wait_for_next_epoch returned true. -/
structure IterScript where
  stop : Bool
  epochOk : Bool
  waitTrue : Bool
deriving DecidableEq, Repr

/-- The while loop of MapReduceBase::handle as the event trace it emits,
one IterScript per iteration; an exhausted script list stands for
wait_for_next_epoch having returned false. On a handle_epoch error the
loop increments the parent error count, wakes the parent and breaks. -/
def mr_handle_loop : List IterScript → List MREvent
  | [] => []
  | s :: rest =>
    if s.stop then []
    else if s.epochOk = false then [MREvent.epochCall, MREvent.errorIncr, MREvent.wakeup]
    else if s.waitTrue = false then [MREvent.epochCall]
    else MREvent.epochCall :: mr_handle_loop rest

/-- MapReduceBase::handle as the event trace it emits: on an
initialization error it increments the parent error count and wakes the
parent and never enters the loop; otherwise it runs the loop after the
first wait succeeds; in every case it then calls handle_uninitialize,
increments the error count if that fails, and finally increments the
parent exit count. -/
def MapReduceBase.handle (initOk firstWait uninitOk : Bool) (iters : List IterScript) :
    List MREvent :=
  (if initOk = false then [MREvent.errorIncr, MREvent.wakeup]
   else if firstWait = false then []
   else mr_handle_loop iters) ++
  [MREvent.uninitCall] ++
  (if uninitOk = false then [MREvent.errorIncr] else []) ++
  [MREvent.exitIncr]

/-- The loop never calls handle_uninitialize nor increments exit_count. -/
theorem mr_handle_loop_events :
    ∀ iters, MREvent.uninitCall ∉ mr_handle_loop iters ∧
      MREvent.exitIncr ∉ mr_handle_loop iters := by
  intro iters
  induction iters with
  | nil => simp [mr_handle_loop]
  | cons s rest ih =>
    unfold mr_handle_loop
    split_ifs <;> simp_all

/-- C7: on every execution path of handle, handle_uninitialize is called
exactly once and the parent exit count is incremented exactly once, with
the exit-count increment as the very last action (hence after the
uninitialize call); on an initialization error the parent error count is
incremented and the parent woken before anything else, without entering
the loop; and an iteration whose handle_epoch fails increments the parent
error count and wakes the parent and leaves the loop at once. -/
theorem c7_handle (initOk firstWait uninitOk : Bool) (iters : List IterScript)
    (s : IterScript) (rest : List IterScript) :
    (MapReduceBase.handle initOk firstWait uninitOk iters).count MREvent.uninitCall = 1 ∧
    (MapReduceBase.handle initOk firstWait uninitOk iters).count MREvent.exitIncr = 1 ∧
    (MapReduceBase.handle initOk firstWait uninitOk iters).getLast? =
      some MREvent.exitIncr ∧
    (initOk = false →
      MapReduceBase.handle initOk firstWait uninitOk iters =
        [MREvent.errorIncr, MREvent.wakeup] ++ [MREvent.uninitCall] ++
          (if uninitOk = false then [MREvent.errorIncr] else []) ++ [MREvent.exitIncr]) ∧
    (s.stop = false → s.epochOk = false →
      mr_handle_loop (s :: rest) =
        [MREvent.epochCall, MREvent.errorIncr, MREvent.wakeup]) := by
  have hu := (mr_handle_loop_events iters).1
  have he := (mr_handle_loop_events iters).2
  refine ⟨?_, ?_, ?_, ?_, ?_⟩
  · unfold MapReduceBase.handle
    split_ifs <;>
      simp [List.count_append, List.count_cons, List.count_eq_zero.mpr hu]
  · unfold MapReduceBase.handle
    split_ifs <;>
      simp [List.count_append, List.count_cons, List.count_eq_zero.mpr he]
  · unfold MapReduceBase.handle
    rw [List.getLast?_concat]
  · intro h
    unfold MapReduceBase.handle
    rw [if_pos h]
  · intro h1 h2
    unfold mr_handle_loop
    rw [if_neg (by simp [h1]), if_pos h2]

/-- Witness for C7: a run that initializes, processes one epoch with an
error in the second iteration. -/
theorem c7_handle_witness :
    (MapReduceBase.handle true true true
        [IterScript.mk false true true, IterScript.mk false false true]).count
      MREvent.uninitCall = 1 ∧
    (MapReduceBase.handle true true true
        [IterScript.mk false true true, IterScript.mk false false true]).count
      MREvent.exitIncr = 1 ∧
    (true = false →
      MapReduceBase.handle true true true
          [IterScript.mk false true true, IterScript.mk false false true] =
        [MREvent.errorIncr, MREvent.wakeup] ++ [MREvent.uninitCall] ++
          (if true = false then [MREvent.errorIncr] else []) ++ [MREvent.exitIncr]) ∧
    ((IterScript.mk false false true).stop = false →
      (IterScript.mk false false true).epochOk = false →
      mr_handle_loop [IterScript.mk false false true, IterScript.mk true true true] =
        [MREvent.epochCall, MREvent.errorIncr, MREvent.wakeup]) := by
  have h := c7_handle true true true
    [IterScript.mk false true true, IterScript.mk false false true]
    (IterScript.mk false false true) [IterScript.mk true true true]
  exact ⟨h.1, h.2.1, h.2.2.2.1, h.2.2.2.2⟩

/-! ## SnapshotOptions (snapshot_options.cpp) -/

/-- The SnapshotOptions fields read by load; the nested device emulation
block is kept as its raw key-value pairs because its own fields are
external to this scope. -/
structure SnapshotOptions where
  folder_path_pattern_ : String
  snapshot_trigger_page_pool_percent_ : Nat
  snapshot_interval_milliseconds_ : Nat
  log_mapper_bucket_kb_ : Nat
  log_mapper_io_buffer_kb_ : Nat
  log_reducer_buffer_mb_ : Nat
  emulation_ : List (String × String)
deriving DecidableEq, Repr

/-- An XML element as load consumes it: scalar values by tag name and
child blocks by tag name. -/
structure XmlElement where
  values : String → Option String
  child_blocks : String → Option (List (String × String))

/-- Modelled from the spec: missing assorted string library.
assorted::replace_all scans left to right and replaces every occurrence of
the pattern with the replacement. -/
def replace_all_chars (pat rep : List Char) : List Char → List Char
  | [] => []
  | c :: cs =>
    if h : pat ≠ [] ∧ (c :: cs).take pat.length = pat then
      rep ++ replace_all_chars pat rep ((c :: cs).drop pat.length)
    else
      c :: replace_all_chars pat rep cs
termination_by s => s.length
decreasing_by
  · have hlen : 1 ≤ pat.length := by
      cases pat with
      | nil => exact absurd rfl h.1
      | cons p ps => simp
    simp only [List.length_drop, List.length_cons]
    omega
  · simp

/-- SnapshotOptions::convert_folder_path_pattern: the folder path pattern
with every occurrence of the placeholder replaced by the decimal node
id. -/
def convert_folder_path_pattern (o : SnapshotOptions) (node : Nat) : String :=
  String.mk (replace_all_chars "$NODE$".data (Nat.repr node).data o.folder_path_pattern_.data)

/-- The scalar tags SnapshotOptions::load reads. -/
def snapshot_options_load_keys : List String :=
  ["folder_path_pattern_", "snapshot_trigger_page_pool_percent_",
    "snapshot_interval_milliseconds_", "log_mapper_bucket_kb_",
    "log_mapper_io_buffer_kb_", "log_reducer_buffer_mb_"]

/-- SnapshotOptions::load, embedded from snapshot_options.cpp: reads each
of the six scalar tags, keeping the current value when the tag is missing
(modelled from the spec for the externalization macro, whose library is
not under the verified sources), and reads the nested
SnapshotDeviceEmulationOptions block. -/
def SnapshotOptions.load (o : SnapshotOptions) (element : XmlElement) : SnapshotOptions :=
  SnapshotOptions.mk
    ((element.values "folder_path_pattern_").getD o.folder_path_pattern_)
    (((element.values "snapshot_trigger_page_pool_percent_").bind String.toNat?).getD
      o.snapshot_trigger_page_pool_percent_)
    (((element.values "snapshot_interval_milliseconds_").bind String.toNat?).getD
      o.snapshot_interval_milliseconds_)
    (((element.values "log_mapper_bucket_kb_").bind String.toNat?).getD
      o.log_mapper_bucket_kb_)
    (((element.values "log_mapper_io_buffer_kb_").bind String.toNat?).getD
      o.log_mapper_io_buffer_kb_)
    (((element.values "log_reducer_buffer_mb_").bind String.toNat?).getD
      o.log_reducer_buffer_mb_)
    ((element.child_blocks "SnapshotDeviceEmulationOptions").getD o.emulation_)


/-- A string without the dollar character contains no occurrence of the
placeholder, so replace_all leaves it unchanged. -/
theorem replace_all_chars_no_occurrence (rep : List Char) :
    ∀ s : List Char, '$' ∉ s → replace_all_chars "$NODE$".data rep s = s := by
  intro s
  induction s with
  | nil => intro _; simp [replace_all_chars]
  | cons c cs ih =>
    intro hnot
    have hc : c ≠ '$' := fun he => hnot (he ▸ List.mem_cons_self c cs)
    have hcs : '$' ∉ cs := fun hm => hnot (List.mem_cons_of_mem c hm)
    have hneg : ¬("$NODE$".data ≠ [] ∧
        (c :: cs).take "$NODE$".data.length = "$NODE$".data) := by
      intro hcon
      have h2 := hcon.2
      rw [show "$NODE$".data = ['$', 'N', 'O', 'D', 'E', '$'] from rfl] at h2
      simp only [List.length_cons, List.length_nil, List.take_succ_cons,
        List.cons.injEq] at h2
      exact hc h2.1
    rw [replace_all_chars, dif_neg hneg, ih hcs]

/-- Replacing across an occurrence of the placeholder that follows a
dollar-free prefix: the prefix is kept, the occurrence becomes the
replacement, and replacement continues in the suffix. -/
theorem replace_all_chars_hit (rep : List Char) :
    ∀ (s1 s2 : List Char), '$' ∉ s1 →
      replace_all_chars "$NODE$".data rep (s1 ++ "$NODE$".data ++ s2) =
        s1 ++ rep ++ replace_all_chars "$NODE$".data rep s2 := by
  intro s1
  induction s1 with
  | nil =>
    intro s2 _
    simp only [List.nil_append]
    rw [show "$NODE$".data ++ s2 = '$' :: ("NODE$".data ++ s2) from rfl]
    rw [replace_all_chars]
    rw [dif_pos]
    · rw [show '$' :: ("NODE$".data ++ s2) = "$NODE$".data ++ s2 from rfl,
        List.drop_left]
    · constructor
      · simp
      · rw [show '$' :: ("NODE$".data ++ s2) = "$NODE$".data ++ s2 from rfl]
        exact List.take_left _ _
  | cons c cs ih =>
    intro s2 hnot
    have hc : c ≠ '$' := fun he => hnot (he ▸ List.mem_cons_self c cs)
    have hcs : '$' ∉ cs := fun hm => hnot (List.mem_cons_of_mem c hm)
    have hneg : ¬("$NODE$".data ≠ [] ∧
        (c :: (cs ++ "$NODE$".data ++ s2)).take "$NODE$".data.length = "$NODE$".data) := by
      intro hcon
      have h2 := hcon.2
      rw [show "$NODE$".data = ['$', 'N', 'O', 'D', 'E', '$'] from rfl] at h2
      simp only [List.length_cons, List.length_nil, List.take_succ_cons,
        List.cons.injEq] at h2
      exact hc h2.1
    rw [show (c :: cs) ++ "$NODE$".data ++ s2 = c :: (cs ++ "$NODE$".data ++ s2) by
      simp]
    rw [replace_all_chars, dif_neg hneg, ih s2 hcs]
    simp

/-- C8: convert_folder_path_pattern returns the folder path pattern with
every occurrence of the placeholder replaced by the decimal node id
(stated as the recursive characterization: across a dollar-free prefix the
occurrence becomes the decimal id and replacement continues behind it, and
a dollar-free rest is returned unchanged); and load reads exactly the six
scalar keys and the nested SnapshotDeviceEmulationOptions block: the
loaded options are determined by the element values at those keys alone,
and each field equals the value read at its key, defaulting to the current
value. -/
theorem c8_snapshot_options (o : SnapshotOptions) (node : Nat)
    (s1 s2 : List Char) (env env2 : XmlElement)
    (hagree : ∀ k ∈ snapshot_options_load_keys, env.values k = env2.values k)
    (hchild : env.child_blocks "SnapshotDeviceEmulationOptions" =
      env2.child_blocks "SnapshotDeviceEmulationOptions") :
    (o.folder_path_pattern_ = String.mk (s1 ++ "$NODE$".data ++ s2) → '$' ∉ s1 →
      convert_folder_path_pattern o node =
        String.mk (s1 ++ (Nat.repr node).data ++
          replace_all_chars "$NODE$".data (Nat.repr node).data s2)) ∧
    ('$' ∉ s2 →
      replace_all_chars "$NODE$".data (Nat.repr node).data s2 = s2) ∧
    SnapshotOptions.load o env = SnapshotOptions.load o env2 ∧
    (SnapshotOptions.load o env).folder_path_pattern_ =
      (env.values "folder_path_pattern_").getD o.folder_path_pattern_ ∧
    (SnapshotOptions.load o env).snapshot_trigger_page_pool_percent_ =
      ((env.values "snapshot_trigger_page_pool_percent_").bind String.toNat?).getD
        o.snapshot_trigger_page_pool_percent_ ∧
    (SnapshotOptions.load o env).snapshot_interval_milliseconds_ =
      ((env.values "snapshot_interval_milliseconds_").bind String.toNat?).getD
        o.snapshot_interval_milliseconds_ ∧
    (SnapshotOptions.load o env).log_mapper_bucket_kb_ =
      ((env.values "log_mapper_bucket_kb_").bind String.toNat?).getD
        o.log_mapper_bucket_kb_ ∧
    (SnapshotOptions.load o env).log_mapper_io_buffer_kb_ =
      ((env.values "log_mapper_io_buffer_kb_").bind String.toNat?).getD
        o.log_mapper_io_buffer_kb_ ∧
    (SnapshotOptions.load o env).log_reducer_buffer_mb_ =
      ((env.values "log_reducer_buffer_mb_").bind String.toNat?).getD
        o.log_reducer_buffer_mb_ ∧
    (SnapshotOptions.load o env).emulation_ =
      (env.child_blocks "SnapshotDeviceEmulationOptions").getD o.emulation_ ∧
    snapshot_options_load_keys =
      ["folder_path_pattern_", "snapshot_trigger_page_pool_percent_",
        "snapshot_interval_milliseconds_", "log_mapper_bucket_kb_",
        "log_mapper_io_buffer_kb_", "log_reducer_buffer_mb_"] := by
  refine ⟨?_, replace_all_chars_no_occurrence (Nat.repr node).data s2, ?_,
    rfl, rfl, rfl, rfl, rfl, rfl, rfl, rfl⟩
  · intro hfold h1
    unfold convert_folder_path_pattern
    rw [hfold]
    show String.mk
        (replace_all_chars "$NODE$".data (Nat.repr node).data (s1 ++ "$NODE$".data ++ s2)) = _
    rw [replace_all_chars_hit (Nat.repr node).data s1 s2 h1]
  · have h1 := hagree "folder_path_pattern_" (by simp [snapshot_options_load_keys])
    have h2 := hagree "snapshot_trigger_page_pool_percent_"
      (by simp [snapshot_options_load_keys])
    have h3 := hagree "snapshot_interval_milliseconds_"
      (by simp [snapshot_options_load_keys])
    have h4 := hagree "log_mapper_bucket_kb_" (by simp [snapshot_options_load_keys])
    have h5 := hagree "log_mapper_io_buffer_kb_" (by simp [snapshot_options_load_keys])
    have h6 := hagree "log_reducer_buffer_mb_" (by simp [snapshot_options_load_keys])
    simp only [SnapshotOptions.load, h1, h2, h3, h4, h5, h6, hchild]

/-- Concrete snapshot options used by the C8 witness: the default folder
path pattern. -/
def snapshot_options_w : SnapshotOptions :=
  SnapshotOptions.mk "snapshots/node_$NODE$" 100 10000 1024 1024 256 []

/-- Concrete XML element used by the C8 witness: sets one scalar key and
the nested block. -/
def xml_element_w : XmlElement :=
  XmlElement.mk
    (fun k => if k = "log_reducer_buffer_mb_" then some "512" else none)
    (fun k => if k = "SnapshotDeviceEmulationOptions"
      then some [("emulated_seek_latency_cycles_", "0")] else none)

/-- A second concrete XML element agreeing with the first on every read
key and on the nested block, but differing on an unread key. -/
def xml_element_w2 : XmlElement :=
  XmlElement.mk
    (fun k => if k = "log_reducer_buffer_mb_" then some "512"
      else if k = "unread_key_" then some "ignored" else none)
    (fun k => if k = "SnapshotDeviceEmulationOptions"
      then some [("emulated_seek_latency_cycles_", "0")] else none)

/-- Witness for C8: the default pattern with node 3 becomes
snapshots/node_3, and loading from the two elements that agree on the read
keys gives the same options. -/
theorem c8_snapshot_options_witness :
    convert_folder_path_pattern snapshot_options_w 3 =
      String.mk ("snapshots/node_".data ++ (Nat.repr 3).data ++
        replace_all_chars "$NODE$".data (Nat.repr 3).data []) ∧
    SnapshotOptions.load snapshot_options_w xml_element_w =
      SnapshotOptions.load snapshot_options_w xml_element_w2 ∧
    (SnapshotOptions.load snapshot_options_w xml_element_w).log_reducer_buffer_mb_ =
      ((xml_element_w.values "log_reducer_buffer_mb_").bind String.toNat?).getD
        snapshot_options_w.log_reducer_buffer_mb_ := by
  have hagree : ∀ k ∈ snapshot_options_load_keys,
      xml_element_w.values k = xml_element_w2.values k := by
    intro k hk
    simp only [snapshot_options_load_keys, List.mem_cons, List.not_mem_nil, or_false] at hk
    rcases hk with rfl | rfl | rfl | rfl | rfl | rfl <;> rfl
  have h := c8_snapshot_options snapshot_options_w 3 "snapshots/node_".data []
    xml_element_w xml_element_w2 hagree rfl
  exact ⟨h.1 rfl (by decide), h.2.2.1, h.2.2.2.2.2.2.2.2.1⟩
